import Mathlib

set_option maxHeartbeats 1000000
set_option synthInstance.maxHeartbeats 400000
set_option maxRecDepth 100000

namespace TwilioChat

/-! Shallow embedding of the Twilio betting chat server (server.py, models.py).
Python strings are modelled as lists of characters; the model restricts
whitespace, case mapping and digit classification to ASCII. -/

abbrev PyStr := List Char

/-- ASCII whitespace, as recognised by Python str.strip and str.split. -/
def isAsciiWS (c : Char) : Bool :=
  c == ' ' || c == '\t' || c == '\n' || c == '\x0d' || c == '\x0b' || c == '\x0c'

/-- Python str.lower on one character (ASCII range). -/
def pyCharLower (c : Char) : Char :=
  if 65 ≤ c.toNat ∧ c.toNat ≤ 90 then Char.ofNat (c.toNat + 32) else c

/-- Python str.upper on one character (ASCII range). -/
def pyCharUpper (c : Char) : Char :=
  if 97 ≤ c.toNat ∧ c.toNat ≤ 122 then Char.ofNat (c.toNat - 32) else c

/-- Python str.strip: drop leading and trailing whitespace. -/
def pyStrip (s : PyStr) : PyStr :=
  ((s.dropWhile isAsciiWS).reverse.dropWhile isAsciiWS).reverse

/-- Python str.lower. -/
def pyLower (s : PyStr) : PyStr := s.map pyCharLower

/-- Python str.capitalize: first character uppercased, the rest lowercased. -/
def pyCapitalize (s : PyStr) : PyStr :=
  match s with
  | [] => []
  | c :: rest => pyCharUpper c :: rest.map pyCharLower

/-- Helper for pySplit: current partial token is accumulated reversed. -/
def pySplitAux : PyStr → PyStr → List PyStr
  | [], cur => if cur = [] then [] else [cur.reverse]
  | c :: rest, cur =>
    if isAsciiWS c then
      if cur = [] then pySplitAux rest []
      else cur.reverse :: pySplitAux rest []
    else pySplitAux rest (c :: cur)

/-- Python str.split with no argument: split on runs of whitespace,
dropping empty tokens. -/
def pySplit (s : PyStr) : List PyStr := pySplitAux s []

/-- Python str.startswith. -/
def pyStartsWith : PyStr → PyStr → Bool
  | _, [] => true
  | [], _ :: _ => false
  | c :: s, p :: ps => c == p && pyStartsWith s ps

/-- Value of an ASCII digit character, none for anything else. -/
def digitVal? (c : Char) : Option Nat :=
  if 48 ≤ c.toNat ∧ c.toNat ≤ 57 then some (c.toNat - 48) else none

/-- Python str.isdigit (ASCII digits). -/
def pyIsDigitStr (s : PyStr) : Bool :=
  !s.isEmpty && s.all (fun c => (digitVal? c).isSome)

/-- Decimal value of a digit string, with an accumulator. -/
def digitsToNat : PyStr → Nat → Nat
  | [], acc => acc
  | c :: rest, acc => digitsToNat rest (acc * 10 + ((digitVal? c).getD 0))

/-- No two consecutive underscores (part of the Python int literal grammar). -/
def noDoubleUnder : PyStr → Bool
  | [] => true
  | [_] => true
  | c1 :: c2 :: rest => !(c1 == '_' && c2 == '_') && noDoubleUnder (c2 :: rest)

/-- Valid body of a Python int literal after the optional sign: non-empty,
first and last characters are digits, every character is a digit or a
single separating underscore. -/
def validIntBody (s : PyStr) : Bool :=
  match s with
  | [] => false
  | c :: _ =>
    (digitVal? c).isSome &&
    (match s.getLast? with
     | some l => (digitVal? l).isSome
     | none => false) &&
    s.all (fun d => (digitVal? d).isSome || d == '_') &&
    noDoubleUnder s

/-- Python int(s) on an already-stripped string: optional sign, then a digit
body possibly containing single underscores between digits. Returns none
where Python raises ValueError. -/
def pyInt? (s : PyStr) : Option Int :=
  match s with
  | '+' :: rest =>
    if validIntBody rest then
      some ((digitsToNat (rest.filter (fun c => !(c == '_'))) 0 : Nat) : Int)
    else none
  | '-' :: rest =>
    if validIntBody rest then
      some (-((digitsToNat (rest.filter (fun c => !(c == '_'))) 0 : Nat) : Int))
    else none
  | _ =>
    if validIntBody s then
      some ((digitsToNat (s.filter (fun c => !(c == '_'))) 0 : Nat) : Int)
    else none

/-- Digit character of d mod 10. -/
def digitChar (d : Nat) : Char := Char.ofNat (48 + d % 10)

/-- Helper for natChars; fuel is an upper bound on the digit count. -/
def natCharsAux : Nat → Nat → List Char → List Char
  | 0, _, acc => acc
  | fuel + 1, n, acc =>
    if n < 10 then digitChar n :: acc
    else natCharsAux fuel (n / 10) (digitChar (n % 10) :: acc)

/-- Decimal rendering of a natural number (Python str on a non-negative int). -/
def natChars (n : Nat) : PyStr := natCharsAux (n + 1) n []

/-- Decimal rendering of an integer (Python str on an int). -/
def intChars (i : Int) : PyStr :=
  if i < 0 then '-' :: natChars i.natAbs else natChars i.toNat

/-! ### The strptime model

server.py parses commence_time with
datetime.strptime(s, "%Y-%m-%dT%H:%M:%SZ") and falls back to the raw
string on ValueError. The model follows the CPython _strptime regex
fragments: %Y is exactly four digits; %m, %d, %H, %M, %S accept one or
two digits with the documented ranges (with ordered-alternation
backtracking); the trailing literals T and Z match case-insensitively
because strptime compiles its regex with IGNORECASE; the whole string
must be consumed. The datetime constructor then validates the field
ranges (which rejects the 60/61 leap seconds the %S regex admits). -/

structure PyDateTime where
  year : Nat
  month : Nat
  day : Nat
  hour : Nat
  minute : Nat
  second : Nat
deriving DecidableEq, Repr

def isLeap (y : Nat) : Bool := y % 4 = 0 && (y % 100 ≠ 0 || y % 400 = 0)

def daysInMonth (y mo : Nat) : Nat :=
  if mo = 2 then (if isLeap y then 29 else 28)
  else if mo = 4 ∨ mo = 6 ∨ mo = 9 ∨ mo = 11 then 30
  else 31

/-- The datetime constructor validation performed by strptime after the
regex match. -/
def mkDateTime (y mo d h mi se : Nat) : Option PyDateTime :=
  if 1 ≤ y ∧ y ≤ 9999 ∧ 1 ≤ mo ∧ mo ≤ 12 ∧ 1 ≤ d ∧ d ≤ daysInMonth y mo ∧
     h ≤ 23 ∧ mi ≤ 59 ∧ se ≤ 59
  then some ⟨y, mo, d, h, mi, se⟩ else none

/-- Ordered alternation of a two-character parse over a one-character parse,
with full backtracking into the continuation, as a regex engine performs it. -/
def parseTwoOrOne {A : Type} (p2 : Char → Char → Option Nat) (p1 : Char → Option Nat)
    (s : PyStr) (k : Nat → PyStr → Option A) : Option A :=
  match s with
  | c1 :: c2 :: rest =>
    match p2 c1 c2 with
    | some v =>
      match k v rest with
      | some r => some r
      | none =>
        match p1 c1 with
        | some v1 => k v1 (c2 :: rest)
        | none => none
    | none =>
      match p1 c1 with
      | some v1 => k v1 (c2 :: rest)
      | none => none
  | [c1] =>
    match p1 c1 with
    | some v1 => k v1 []
    | none => none
  | [] => none

/-- Month regex fragment 1[0-2]|0[1-9] (two-character alternatives). -/
def pMonth2 (c1 c2 : Char) : Option Nat :=
  match digitVal? c1, digitVal? c2 with
  | some a, some b =>
    if a = 1 ∧ b ≤ 2 then some (10 + b)
    else if a = 0 ∧ 1 ≤ b then some b
    else none
  | _, _ => none

/-- Regex fragment [1-9] (one nonzero digit). -/
def pNonzero1 (c : Char) : Option Nat :=
  match digitVal? c with
  | some a => if 1 ≤ a then some a else none
  | none => none

/-- Day regex fragment 3[01]|[12]\d|0[1-9]. -/
def pDay2 (c1 c2 : Char) : Option Nat :=
  match digitVal? c1, digitVal? c2 with
  | some a, some b =>
    if a = 3 ∧ b ≤ 1 then some (30 + b)
    else if a = 1 ∨ a = 2 then some (10 * a + b)
    else if a = 0 ∧ 1 ≤ b then some b
    else none
  | _, _ => none

/-- Hour regex fragment 2[0-3]|[0-1]\d. -/
def pHour2 (c1 c2 : Char) : Option Nat :=
  match digitVal? c1, digitVal? c2 with
  | some a, some b =>
    if a = 2 ∧ b ≤ 3 then some (20 + b)
    else if a ≤ 1 then some (10 * a + b)
    else none
  | _, _ => none

/-- Regex fragment \d (any one digit). -/
def pAny1 (c : Char) : Option Nat := digitVal? c

/-- Minute regex fragment [0-5]\d. -/
def pMin2 (c1 c2 : Char) : Option Nat :=
  match digitVal? c1, digitVal? c2 with
  | some a, some b => if a ≤ 5 then some (10 * a + b) else none
  | _, _ => none

/-- Second regex fragment 6[0-1]|[0-5]\d. -/
def pSec2 (c1 c2 : Char) : Option Nat :=
  match digitVal? c1, digitVal? c2 with
  | some a, some b =>
    if a = 6 ∧ b ≤ 1 then some (60 + b)
    else if a ≤ 5 then some (10 * a + b)
    else none
  | _, _ => none

/-- Stage: seconds, then the final literal Z and end of input. -/
def pStage5 (y mo d h mi : Nat) (s : PyStr) : Option PyDateTime :=
  parseTwoOrOne pSec2 pAny1 s (fun se rest =>
    match rest with
    | [z] => if z = 'Z' ∨ z = 'z' then mkDateTime y mo d h mi se else none
    | _ => none)

/-- Stage: minutes, a literal colon, then seconds. -/
def pStage4 (y mo d h : Nat) (s : PyStr) : Option PyDateTime :=
  parseTwoOrOne pMin2 pAny1 s (fun mi rest =>
    match rest with
    | c :: r => if c = ':' then pStage5 y mo d h mi r else none
    | [] => none)

/-- Stage: hours, a literal colon, then minutes. -/
def pStage3 (y mo d : Nat) (s : PyStr) : Option PyDateTime :=
  parseTwoOrOne pHour2 pAny1 s (fun h rest =>
    match rest with
    | c :: r => if c = ':' then pStage4 y mo d h r else none
    | [] => none)

/-- Stage: day, a literal T (case-insensitive), then hours. -/
def pStage2 (y mo : Nat) (s : PyStr) : Option PyDateTime :=
  parseTwoOrOne pDay2 pNonzero1 s (fun d rest =>
    match rest with
    | t :: r => if t = 'T' ∨ t = 't' then pStage3 y mo d r else none
    | [] => none)

/-- Stage: month, a literal dash, then day. -/
def pStage1 (y : Nat) (s : PyStr) : Option PyDateTime :=
  parseTwoOrOne pMonth2 pNonzero1 s (fun mo rest =>
    match rest with
    | c :: r => if c = '-' then pStage2 y mo r else none
    | [] => none)

/-- datetime.strptime(s, "%Y-%m-%dT%H:%M:%SZ"), returning none where
Python raises ValueError. -/
def parseTS (s : PyStr) : Option PyDateTime :=
  match s with
  | c1 :: c2 :: c3 :: c4 :: c5 :: rest =>
    if c5 = '-' then
      match digitVal? c1, digitVal? c2, digitVal? c3, digitVal? c4 with
      | some a, some b, some c, some d => pStage1 (((a * 10 + b) * 10 + c) * 10 + d) rest
      | _, _, _, _ => none
    else none
  | _ => none

def monthName : Nat → PyStr
  | 1 => "January".data
  | 2 => "February".data
  | 3 => "March".data
  | 4 => "April".data
  | 5 => "May".data
  | 6 => "June".data
  | 7 => "July".data
  | 8 => "August".data
  | 9 => "September".data
  | 10 => "October".data
  | 11 => "November".data
  | 12 => "December".data
  | _ => []

/-- Two-digit zero-padded rendering (strftime %d, %H, %M). -/
def pad2 (n : Nat) : PyStr := [digitChar (n / 10 % 10), digitChar (n % 10)]

/-- dt.strftime("%B %d, %Y at %H:%M UTC"). The year is rendered without
padding, as glibc strftime %Y does. -/
def renderDT (dt : PyDateTime) : PyStr :=
  monthName dt.month ++ " ".data ++ pad2 dt.day ++ ", ".data ++ natChars dt.year ++
    " at ".data ++ pad2 dt.hour ++ ":".data ++ pad2 dt.minute ++ " UTC".data

/-- The try/except formatting block of server.py: render the parsed
timestamp, or echo the raw string if strptime raises ValueError. -/
def formatCommence (s : PyStr) : PyStr :=
  match parseTS s with
  | some dt => renderDT dt
  | none => s

/-- The canonical zero-padded timestamp YYYY-MM-DDTHH:MM:SSZ named by the
specification. -/
def canonicalTS (y mo d h mi se : Nat) : PyStr :=
  [digitChar (y / 1000 % 10), digitChar (y / 100 % 10), digitChar (y / 10 % 10),
   digitChar (y % 10), '-'] ++ pad2 mo ++ ['-'] ++ pad2 d ++ ['T'] ++ pad2 h ++
   [':'] ++ pad2 mi ++ [':'] ++ pad2 se ++ ['Z']

/-! ### Data model (models.py and the JSON payloads of server.py) -/

/-- One selectable side of a match: outcome.get("name") and
outcome.get("price"). The price is only ever interpolated into messages,
so the model carries its rendered form. -/
structure Outcome where
  name : PyStr
  price : PyStr
deriving DecidableEq, Repr

/-- match.get("odds", \x7b\x7d).get("outcomes", []). A missing odds or
outcomes key is the empty list. -/
structure MOdds where
  outcomes : List Outcome
deriving DecidableEq, Repr

/-- A match dictionary as fetched from the external API. id is nullable
(Bet.match_id is nullable); sport_key is read with match.get("sport_key")
and may be absent. -/
structure MatchData where
  id : Option PyStr
  home_team : PyStr
  away_team : PyStr
  commence_time : PyStr
  sport_key : Option PyStr
  odds : MOdds
deriving DecidableEq, Repr

instance : Inhabited MatchData := ⟨⟨none, [], [], [], none, ⟨[]⟩⟩⟩

/-- A tournament descriptor from the startup catalog. -/
structure Tournament where
  title : PyStr
  key : PyStr
  active : Bool
deriving DecidableEq, Repr

instance : Inhabited Tournament := ⟨⟨[], [], false⟩⟩

/-- The process-wide sports_list: sport key to tournaments, ordered as the
Python dict iterates (insertion order). -/
abbrev Catalog := List (PyStr × List Tournament)

/-- sports_list[k] as an optional lookup (Python raises KeyError on a
missing key; callers of this model handle that case explicitly). -/
def catFind? (cat : Catalog) (k : PyStr) : Option (List Tournament) :=
  (cat.find? (fun p => p.1 == k)).map (fun p => p.2)

/-- Python membership test: k in sports_list. -/
def keyMem (cat : Catalog) (k : PyStr) : Bool :=
  cat.any (fun p => p.1 == k)

/-- A row of the users table (models.py User). -/
structure UserRec where
  user_id : Nat
  whatsapp_number : PyStr
  coins_balance : Int
  referral_code : PyStr
deriving DecidableEq, Repr

/-- A row of the bets table (models.py Bet). sport_key is declared NOT NULL
in the schema but server.py passes match.get("sport_key"), so the model
carries the runtime optional value. -/
structure BetRec where
  bet_id : Nat
  user_id : Nat
  sport_key : Option PyStr
  event_name : PyStr
  match_id : Option PyStr
  status : PyStr
  cost : Int
deriving DecidableEq, Repr

/-- The database: both tables plus the autoincrement counters. -/
structure Db where
  users : List UserRec
  bets : List BetRec
  nextUserId : Nat
  nextBetId : Nat
deriving DecidableEq, Repr

/-- db.query(User).filter(User.whatsapp_number == n).first() -/
def findUser (users : List UserRec) (n : PyStr) : Option UserRec :=
  users.find? (fun u => u.whatsapp_number == n)

/-- The per-user conversation state entry stored in the user_state dict.
Absence of an entry is the idle state. -/
inductive ConvState where
  | select_sport
  | select_tournament (sport : PyStr)
  | select_match (sport : PyStr) (tournament : PyStr) (ms : List MatchData)
  | place_bet (sport : Option PyStr) (tournament : Option PyStr) (mtch : Option MatchData)
deriving DecidableEq, Repr

/-- Request-level context: the startup catalog snapshot, the external
match fetch (returns [] on any failure), and the referral code the
uuid call of this request would generate. -/
structure Ctx where
  sports_list : Catalog
  fetchMatches : PyStr → List MatchData
  freshReferral : PyStr

/-- The observable outcome of one webhook request: database afterwards,
conversation state entry afterwards, WhatsApp messages sent in order, and
the HTTP status (500 models an uncaught exception). -/
structure StepResult where
  db : Db
  entry : Option ConvState
  messages : List PyStr
  status : Nat
deriving DecidableEq, Repr

/-! ### Message texts (transcribed verbatim from server.py) -/

/-- Rendering of an optional string in an f-string: None prints as "None". -/
def optStr (o : Option PyStr) : PyStr := o.getD "None".data

/-- Shared trailing line of most prompts. -/
def exitTail : PyStr := "🔄 Type \x27exit\x27 anytime to leave the betting process.".data

def exitMsg : PyStr :=
  "👋 You have exited the betting process.\n\nYou can type:\n1️⃣ \x27start\x27 to begin selecting a sport and place a bet.\n2️⃣ \x27my account\x27 to check your current balance and referral code.".data

def welcomeMsg : PyStr :=
  "🎉 Welcome to Opiniox, your ultimate opinion betting platform! 🎉\n\nYour account has been successfully created with 500 coins. Ready to place your bets and test your predictions?\n\nHere\x27s what you can do:\n1️⃣ Type \x27start\x27 to begin selecting your sport and place a bet.\n2️⃣ Type \x27my account\x27 to check your current balance and referral code.\n\nLet the fun begin and may your bets be ever in your favor! 🚀".data

/-- Numbered lines: one f"\x7bidx\x7d. \x7brender x\x7d\n" per element. -/
def enumLines (render : α → PyStr) : List α → Nat → PyStr
  | [], _ => []
  | x :: rest, i => natChars i ++ ". ".data ++ render x ++ "\n".data ++ enumLines render rest (i + 1)

/-- The sport list of the idle start command. -/
def startSportsMsg (sports : List PyStr) : PyStr :=
  "🏆 *Select a Sport:*\n".data ++ enumLines id sports 1 ++
    "\n➡️ Reply with the sport name or number.\n\n".data ++ exitTail

/-- Invalid selection in select_sport: the sport list re-offered. -/
def invalidSportMsg (sports : List PyStr) : PyStr :=
  "❌ *Invalid selection.* Please choose a valid sport by typing the corresponding number or sport name.\n\n".data ++
    "🏆 *Available Sports:*\n".data ++ enumLines id sports 1 ++
    "\n➡️ Reply with the sport name or number.\n\n".data ++ exitTail

def noTournamentsMsg : PyStr := "❌ No tournaments available for the selected sport.".data

/-- Tournament list for a selected sport. -/
def tournamentListMsg (sport : PyStr) (active : List Tournament) : PyStr :=
  "🏅 *".data ++ sport ++ " Tournaments:*\n".data ++
    enumLines (fun t => t.title) active 1 ++
    "\n➡️ Reply with the number of the tournament you\x27d like to bet on (e.g., \x271\x27).\n\n".data ++ exitTail

def invalidTournamentInputMsg : PyStr :=
  "❌ *Invalid input.* Please reply with a number corresponding to the tournament.".data

def invalidTournamentSelMsg : PyStr :=
  "❌ *Invalid selection.* Please choose a valid tournament by typing the corresponding number.".data

def noMatchesMsg : PyStr := "❌ No matches found for the selected tournament.".data

/-- One line of the match list. -/
def matchLine (m : MatchData) : PyStr :=
  m.home_team ++ " vs ".data ++ m.away_team ++ " at ".data ++ formatCommence m.commence_time

/-- Match list for a selected tournament. -/
def matchListMsg (title : PyStr) (ms : List MatchData) : PyStr :=
  "⚽ *".data ++ title ++ " Matches:*\n".data ++ enumLines matchLine ms 1 ++
    "\n➡️ Reply with the number of the match you\x27d like to bet on (e.g., \x271\x27).\n\n".data ++ exitTail

def invalidMatchInputMsg : PyStr :=
  "❌ *Invalid input.* Please reply with a number corresponding to the match.".data

def invalidMatchSelMsg : PyStr :=
  "❌ *Invalid selection.* Please choose a valid match by typing the corresponding number.".data

def noOutcomesMsg : PyStr :=
  "❌ *No betting outcomes available for this match.* Please select another match.".data

/-- Match details and outcome list shown on entering place_bet. -/
def matchSelectedMsg (m : MatchData) : PyStr :=
  "🏟️ *Match Selected:*\n".data ++ m.home_team ++ " vs ".data ++ m.away_team ++
    "\nCommence Time: ".data ++ formatCommence m.commence_time ++
    "\n\n*Available Outcomes:*\n".data ++
    enumLines (fun o => o.name ++ ": ".data ++ o.price) m.odds.outcomes 1 ++
    "\n➡️ To place a bet, type \x27bet \x7bnumber\x7d\x27 corresponding to your chosen outcome (e.g., \x27bet 1\x27).\n\n".data ++ exitTail

def betFormatMsg : PyStr :=
  "❌ *Invalid command format.* Please type \x27bet \x7bnumber\x7d\x27 (e.g., \x27bet 1\x27).".data

def noMatchSelectedMsg : PyStr :=
  "❌ *No match selected.* Please start the betting process again by typing \x27start\x27.".data

def invalidBetSelMsg : PyStr :=
  "❌ *Invalid bet selection.* Please choose a valid outcome by typing the corresponding number.".data

def insufficientMsg : PyStr := "❌ *Insufficient balance* to place the bet.".data

/-- Bet placement confirmation. -/
def confirmationMsg (team price : PyStr) (cost newBal : Int) : PyStr :=
  "✅ *Bet Placed!*\nTeam: ".data ++ team ++ "\nOdds: ".data ++ price ++
    "\nCost: ".data ++ intChars cost ++ " coins\nRemaining Balance: ".data ++
    intChars newBal ++ " coins.\n\nType \x27start\x27 to place another bet or \x27my account\x27 to view your details.\n\n".data ++ exitTail

def invalidPlaceBetCmdMsg : PyStr :=
  "❌ *Invalid command.* Please type \x27bet \x7bnumber\x7d\x27 to place a bet (e.g., \x27bet 1\x27).".data

def idleInvalidMsg : PyStr :=
  "❓ *Invalid command.*\n\nYou can:\n1. Type \x27start\x27 to select a sport and place a bet.\n2. Type \x27my account\x27 to check your balance.\n\n".data ++ exitTail

/-- Status emoji chosen for a bet status in the account message. -/
def statusEmoji (status : PyStr) : PyStr :=
  if pyLower status = "placed".data then "🔵".data
  else if pyLower status = "won".data then "🟢".data
  else if pyLower status = "lost".data then "🔴".data
  else "⚪".data

/-- One numbered block of the recent bet history. -/
def accountBetsLines : List BetRec → Nat → PyStr
  | [], _ => []
  | b :: rest, i =>
    natChars i ++ ". *Event:* ".data ++ b.event_name ++
      "\n   *Match ID:* ".data ++ optStr b.match_id ++
      "\n   *Cost:* ".data ++ intChars b.cost ++
      " coins\n   *Status:* ".data ++ statusEmoji b.status ++ " ".data ++
      pyCapitalize b.status ++ "\n\n".data ++ accountBetsLines rest (i + 1)

/-- Insert a bet into a list kept in descending bet_id order (stable). -/
def insertDesc (b : BetRec) : List BetRec → List BetRec
  | [] => [b]
  | x :: rest => if b.bet_id ≤ x.bet_id then x :: insertDesc b rest else b :: x :: rest

/-- Sort bets by bet_id descending, modelling order_by(Bet.bet_id.desc()). -/
def sortBetsDesc : List BetRec → List BetRec
  | [] => []
  | b :: rest => insertDesc b (sortBetsDesc rest)

/-- db.query(Bet).filter(Bet.user_id == uid).order_by(Bet.bet_id.desc()).limit(5).all() -/
def recentBets (db : Db) (uid : Nat) : List BetRec :=
  (sortBetsDesc (db.bets.filter (fun b => b.user_id == uid))).take 5

/-- db.query(Bet).filter(Bet.user_id == uid).count() -/
def countBets (db : Db) (uid : Nat) : Nat :=
  (db.bets.filter (fun b => b.user_id == uid)).length

/-- The my-account reply. The navigation-options line is only appended in
the empty-history branch, mirroring the indentation of server.py. -/
def accountMsg (db : Db) (u : UserRec) : PyStr :=
  let bets := recentBets db u.user_id
  let base :=
    "💰 *Your Account Details:*\n🔹 Balance: ".data ++ intChars u.coins_balance ++
      " coins\n🔹 Referral Code: ".data ++ u.referral_code ++
      "\n\n📜 *Your Recent Bet History:*\n".data
  if bets ≠ [] then
    let withBets := base ++ accountBetsLines bets 1
    let total := countBets db u.user_id
    if total > 5 then
      withBets ++ "...and ".data ++ natChars (total - 5) ++
        " more bets. Visit \x27my account\x27 for the complete history.".data
    else withBets
  else
    base ++ "You haven\x27t placed any bets yet.\n\n".data ++
      "🔄 Type \x27start\x27 to place a new bet or \x27exit\x27 to return to the main menu.".data

/-! ### The conversation state machine (receive_message of server.py) -/

/-- The sport_mapping dict of the select_sport handler: numeric index keys
are inserted first and then overwritten by lowercased sport-name keys, so a
name key shadows a numeric key and, among duplicate lowercased names, the
last sport wins. -/
def findNumericSport : List PyStr → Nat → PyStr → Option PyStr
  | [], _, _ => none
  | s :: rest, i, inp => if natChars i == inp then some s else findNumericSport rest (i + 1) inp

def sportMappingGet (cat : Catalog) (inp : PyStr) : Option PyStr :=
  let sports := cat.map (fun p => p.1)
  match (sports.reverse).find? (fun s => pyLower s == inp) with
  | some s => some s
  | none => findNumericSport sports 1 inp

/-- The select_sport branch. On a valid selection the state is first set to
select_tournament and then popped again if the sport has no active
tournaments; the model records the net effect. -/
def handleSelectSport (ctx : Ctx) (db : Db) (incoming : PyStr) : StepResult :=
  let sports := ctx.sports_list.map (fun p => p.1)
  match sportMappingGet ctx.sports_list incoming with
  | some sp =>
    if sp ≠ [] ∧ keyMem ctx.sports_list sp then
      let tournaments := (catFind? ctx.sports_list sp).getD []
      let active := tournaments.filter (fun t => t.active)
      if active = [] then ⟨db, none, [noTournamentsMsg], 200⟩
      else ⟨db, some (.select_tournament sp), [tournamentListMsg sp active], 200⟩
    else ⟨db, some .select_sport, [invalidSportMsg sports], 200⟩
  | none => ⟨db, some .select_sport, [invalidSportMsg sports], 200⟩

/-- The select_tournament branch. sports_list[selected_sport] raises
KeyError when the sport is absent; that uncaught exception is modelled as
an HTTP 500 with no message and no state change. -/
def handleSelectTournament (ctx : Ctx) (db : Db) (sport : PyStr) (incoming : PyStr) : StepResult :=
  match pyInt? incoming with
  | none => ⟨db, some (.select_tournament sport), [invalidTournamentInputMsg], 200⟩
  | some v =>
    let idx := v - 1
    match catFind? ctx.sports_list sport with
    | none => ⟨db, some (.select_tournament sport), [], 500⟩
    | some tournaments =>
      let active := tournaments.filter (fun t => t.active)
      if 0 ≤ idx ∧ idx < (active.length : Int) then
        let t := active.getD idx.toNat default
        let event_key := (pyLower t.key).map (fun c => if c = ' ' then '_' else c)
        let ms := ctx.fetchMatches event_key
        if ms = [] then ⟨db, none, [noMatchesMsg], 200⟩
        else ⟨db, some (.select_match sport t.title ms), [matchListMsg t.title ms], 200⟩
      else ⟨db, some (.select_tournament sport), [invalidTournamentSelMsg], 200⟩

/-- The select_match branch. Note that the zero-outcomes case returns
without touching user_state, so the entry stays select_match. -/
def handleSelectMatch (db : Db) (sport tournament : PyStr) (ms : List MatchData)
    (incoming : PyStr) : StepResult :=
  let keep := some (ConvState.select_match sport tournament ms)
  match pyInt? incoming with
  | none => ⟨db, keep, [invalidMatchInputMsg], 200⟩
  | some v =>
    let idx := v - 1
    if 0 ≤ idx ∧ idx < (ms.length : Int) then
      let m := ms.getD idx.toNat default
      if m.odds.outcomes = [] then ⟨db, keep, [noOutcomesMsg], 200⟩
      else ⟨db, some (.place_bet (some sport) (some tournament) (some m)),
              [matchSelectedMsg m], 200⟩
    else ⟨db, keep, [invalidMatchSelMsg], 200⟩

/-- The place_bet branch. Python checks state.get("match") for truthiness;
an entry reaches place_bet only holding a non-empty match dict, so the
falsy case coincides with the absent (none) case in this model. -/
def handlePlaceBet (db : Db) (u : UserRec) (so tn : Option PyStr)
    (mo : Option MatchData) (incoming : PyStr) : StepResult :=
  let keep := some (ConvState.place_bet so tn mo)
  if pyStartsWith incoming "bet".data then
    let parts := pySplit incoming
    if parts.length ≠ 2 ∨ ¬ pyIsDigitStr (parts.getD 1 []) then
      ⟨db, keep, [betFormatMsg], 200⟩
    else
      let bet_choice : Int := (digitsToNat (parts.getD 1 []) 0 : Nat) - 1
      match mo with
      | none => ⟨db, none, [noMatchSelectedMsg], 200⟩
      | some m =>
        let outcomes := m.odds.outcomes
        if 0 ≤ bet_choice ∧ bet_choice < (outcomes.length : Int) then
          let o := outcomes.getD bet_choice.toNat ⟨[], []⟩
          let bet_cost : Int := 10
          if u.coins_balance ≥ bet_cost then
            let newBal := u.coins_balance - bet_cost
            let newBet : BetRec :=
              ⟨db.nextBetId, u.user_id, m.sport_key,
               m.home_team ++ " vs ".data ++ m.away_team, m.id, "placed".data, bet_cost⟩
            ⟨⟨db.users.map (fun v => if v.user_id = u.user_id then
                 ⟨v.user_id, v.whatsapp_number, newBal, v.referral_code⟩ else v),
              db.bets ++ [newBet], db.nextUserId, db.nextBetId + 1⟩,
             none, [confirmationMsg o.name o.price bet_cost newBal], 200⟩
          else ⟨db, keep, [insufficientMsg], 200⟩
        else ⟨db, keep, [invalidBetSelMsg], 200⟩
  else ⟨db, keep, [invalidPlaceBetCmdMsg], 200⟩

/-- The idle (no state entry) command handling. -/
def handleIdle (ctx : Ctx) (db : Db) (u : UserRec) (incoming : PyStr) : StepResult :=
  if incoming = "start".data then
    ⟨db, some .select_sport, [startSportsMsg (ctx.sports_list.map (fun p => p.1))], 200⟩
  else if incoming = "my account".data then
    ⟨db, none, [accountMsg db u], 200⟩
  else
    ⟨db, none, [idleInvalidMsg], 200⟩

/-- Dispatch on the current conversation state. -/
def dispatch (ctx : Ctx) (db : Db) (entry : Option ConvState) (u : UserRec)
    (incoming : PyStr) : StepResult :=
  match entry with
  | some .select_sport => handleSelectSport ctx db incoming
  | some (.select_tournament sp) => handleSelectTournament ctx db sp incoming
  | some (.select_match sp t ms) => handleSelectMatch db sp t ms incoming
  | some (.place_bet so tn mo) => handlePlaceBet db u so tn mo incoming
  | none => handleIdle ctx db u incoming

/-- The webhook handler after signature validation: normalise the body,
drop requests without a sender, intercept exit when a state entry exists,
create the account on first contact (welcome message first, then the same
message is still processed), and dispatch on the state. -/
def receive_message (ctx : Ctx) (db : Db) (entry : Option ConvState)
    (bodyRaw fromRaw : PyStr) : StepResult :=
  let incoming := pyLower (pyStrip bodyRaw)
  let from_number := pyStrip fromRaw
  if from_number = [] then ⟨db, entry, [], 200⟩
  else if incoming = "exit".data ∧ entry.isSome then ⟨db, none, [exitMsg], 200⟩
  else
    match findUser db.users from_number with
    | some u => dispatch ctx db entry u incoming
    | none =>
      let newUser : UserRec := ⟨db.nextUserId, from_number, 500, ctx.freshReferral⟩
      let db1 : Db := ⟨db.users ++ [newUser], db.bets, db.nextUserId + 1, db.nextBetId⟩
      let r := dispatch ctx db1 entry newUser incoming
      ⟨r.db, r.entry, welcomeMsg :: r.messages, r.status⟩

/-- Well-formedness of a stored state entry with respect to the catalog
snapshot: a select_tournament entry names a catalog key, a select_match
entry holds the non-empty fetched match list, and a place_bet entry holds
a selected match with a non-empty outcome list. -/
def WF (cat : Catalog) (e : Option ConvState) : Prop :=
  match e with
  | none => True
  | some .select_sport => True
  | some (.select_tournament sp) => (catFind? cat sp).isSome = true
  | some (.select_match _ _ ms) => ms ≠ []
  | some (.place_bet _ _ none) => False
  | some (.place_bet _ _ (some m)) => m.odds.outcomes ≠ []

/-! ### Concrete fixtures used by the witnesses -/

def wT1 : Tournament := ⟨"Premier League".data, "EPL".data, true⟩
def wO1 : Outcome := ⟨"Arsenal".data, "1.95".data⟩
def wO2 : Outcome := ⟨"Chelsea".data, "2.4".data⟩
def wM1 : MatchData :=
  ⟨some "M1".data, "Arsenal".data, "Chelsea".data, "2024-06-15T18:30:00Z".data,
   some "soccer".data, ⟨[wO1, wO2]⟩⟩
def wM0 : MatchData := ⟨some "M2".data, "A".data, "B".data, "garbage".data, none, ⟨[]⟩⟩
def wCat : Catalog := [("Soccer".data, [wT1]), ("Tennis".data, [])]
def wCtx : Ctx := ⟨wCat, fun k => if k = "epl".data then [wM1, wM0] else [], "REF1".data⟩
def wU : UserRec := ⟨1, "+111".data, 500, "CODE".data⟩
def wDb : Db := ⟨[wU], [], 2, 1⟩

/-- A ledger with six bets of user 1 and one of user 2, for the account
history witnesses. -/
def wDb6 : Db :=
  ⟨[wU],
   [⟨1, 1, none, "E1".data, none, "placed".data, 10⟩,
    ⟨2, 1, none, "E2".data, none, "won".data, 10⟩,
    ⟨3, 1, none, "E3".data, none, "x".data, 10⟩,
    ⟨4, 1, none, "E4".data, none, "lost".data, 10⟩,
    ⟨5, 1, none, "E5".data, none, "placed".data, 10⟩,
    ⟨6, 1, none, "E6".data, none, "placed".data, 10⟩,
    ⟨7, 2, none, "E7".data, none, "placed".data, 10⟩],
   2, 8⟩

/-! ### Supporting lemmas -/

theorem list_getD_of_get? {α : Type} (l : List α) (k : Nat) (a d : α)
    (h : l.get? k = some a) : l.getD k d = a := by
  induction l generalizing k with
  | nil => simp at h
  | cons x xs ih =>
    cases k with
    | zero => simp at h; simp [List.getD, h]
    | succ k' => simpa [List.getD] using ih k' (by simpa using h)

theorem digit_not_ws (c : Char) (h : (digitVal? c).isSome = true) :
    isAsciiWS c = false := by
  unfold digitVal? at h
  split at h
  · rename_i hr
    have key : ∀ d : Char, d.toNat < 48 → (c == d) = false := by
      intro d hd
      apply beq_eq_false_iff_ne.mpr
      rintro rfl
      omega
    unfold isAsciiWS
    rw [key ' ' (by decide), key '\t' (by decide), key '\n' (by decide),
        key '\x0d' (by decide), key '\x0b' (by decide), key '\x0c' (by decide)]
    simp
  · simp at h

theorem pySplitAux_noWS (ds : PyStr) (h : ∀ c ∈ ds, isAsciiWS c = false) :
    ∀ acc : PyStr, (acc ≠ [] ∨ ds ≠ []) → pySplitAux ds acc = [acc.reverse ++ ds] := by
  induction ds with
  | nil =>
    intro acc hne
    have : acc ≠ [] := by tauto
    simp [pySplitAux, this]
  | cons c rest ih =>
    intro acc _
    have hc : isAsciiWS c = false := h c (by simp)
    have hrest : ∀ d ∈ rest, isAsciiWS d = false := fun d hd => h d (by simp [hd])
    simp only [pySplitAux, hc, Bool.false_eq_true, if_false]
    rw [ih hrest (c :: acc) (Or.inl (by simp))]
    simp

theorem pySplit_bet (ds : PyStr) (hds : pyIsDigitStr ds = true) :
    pySplit ("bet ".data ++ ds) = ["bet".data, ds] := by
  have hne : ds ≠ [] := by
    intro h
    rw [h] at hds
    simp [pyIsDigitStr] at hds
  have hnws : ∀ c ∈ ds, isAsciiWS c = false := by
    intro c hc
    apply digit_not_ws
    unfold pyIsDigitStr at hds
    simp only [Bool.and_eq_true, List.all_eq_true] at hds
    exact hds.2 c hc
  have hdata : "bet ".data = ['b', 'e', 't', ' '] := rfl
  rw [hdata]
  show pySplitAux ('b' :: 'e' :: 't' :: ' ' :: ds) [] = _
  simp only [pySplitAux, isAsciiWS]
  norm_num
  rw [pySplitAux_noWS ds hnws [] (Or.inr hne)]
  simp

theorem pyStartsWith_bet (ds : PyStr) :
    pyStartsWith ("bet ".data ++ ds) "bet".data = true := by
  have hdata : "bet ".data = ['b', 'e', 't', ' '] := rfl
  rw [hdata]
  show pyStartsWith ('b' :: 'e' :: 't' :: ' ' :: ds) ('b' :: 'e' :: 't' :: []) = true
  simp [pyStartsWith]

theorem bet_body_ne_exit (ds : PyStr) (hds : pyIsDigitStr ds = true) :
    "bet ".data ++ ds ≠ "exit".data := by
  intro h
  have hlen := congrArg List.length h
  simp only [List.length_append] at hlen
  have h4 : ("bet ".data).length = 4 := rfl
  have h4' : ("exit".data).length = 4 := rfl
  rw [h4, h4'] at hlen
  have : ds = [] := List.length_eq_zero.mp (by omega)
  rw [this] at hds
  simp [pyIsDigitStr] at hds

/-- Reduction of receive_message for a known sender when exit does not fire. -/
theorem receive_message_known (ctx : Ctx) (db : Db) (entry : Option ConvState)
    (bodyRaw fromRaw : PyStr) (u : UserRec)
    (hfrom : pyStrip fromRaw ≠ [])
    (hu : findUser db.users (pyStrip fromRaw) = some u)
    (hexit : ¬(pyLower (pyStrip bodyRaw) = "exit".data ∧ entry.isSome = true)) :
    receive_message ctx db entry bodyRaw fromRaw =
      dispatch ctx db entry u (pyLower (pyStrip bodyRaw)) := by
  unfold receive_message
  rw [if_neg hfrom, if_neg hexit, hu]

/-- Reduction of receive_message for an unseen sender when exit does not fire. -/
theorem receive_message_new (ctx : Ctx) (db : Db) (entry : Option ConvState)
    (bodyRaw fromRaw : PyStr)
    (hfrom : pyStrip fromRaw ≠ [])
    (hu : findUser db.users (pyStrip fromRaw) = none)
    (hexit : ¬(pyLower (pyStrip bodyRaw) = "exit".data ∧ entry.isSome = true)) :
    receive_message ctx db entry bodyRaw fromRaw =
      let newUser : UserRec := ⟨db.nextUserId, pyStrip fromRaw, 500, ctx.freshReferral⟩
      let db1 : Db := ⟨db.users ++ [newUser], db.bets, db.nextUserId + 1, db.nextBetId⟩
      let r := dispatch ctx db1 entry newUser (pyLower (pyStrip bodyRaw))
      ⟨r.db, r.entry, welcomeMsg :: r.messages, r.status⟩ := by
  unfold receive_message
  rw [if_neg hfrom, if_neg hexit, hu]

theorem pyInt_ne_exit (s : PyStr) (v : Int) (hv : pyInt? s = some v) :
    s ≠ "exit".data := by
  intro h
  rw [h] at hv
  have : pyInt? "exit".data = none := by decide
  rw [this] at hv
  exact Option.noConfusion hv

theorem mem_insertDesc (b x : BetRec) (l : List BetRec) :
    x ∈ insertDesc b l ↔ x = b ∨ x ∈ l := by
  induction l with
  | nil => simp [insertDesc]
  | cons y rest ih =>
    unfold insertDesc
    split
    · simp only [List.mem_cons, ih]
      tauto
    · simp only [List.mem_cons]

theorem pairwise_insertDesc (b : BetRec) (l : List BetRec)
    (h : List.Pairwise (fun a c => c.bet_id ≤ a.bet_id) l) :
    List.Pairwise (fun a c => c.bet_id ≤ a.bet_id) (insertDesc b l) := by
  induction l with
  | nil => simp [insertDesc]
  | cons y rest ih =>
    obtain ⟨hy, hrest⟩ := List.pairwise_cons.mp h
    unfold insertDesc
    split
    · rename_i hle
      refine List.pairwise_cons.mpr ⟨?_, ih hrest⟩
      intro z hz
      rcases (mem_insertDesc b z rest).mp hz with rfl | hz'
      · exact hle
      · exact hy z hz'
    · rename_i hgt
      refine List.pairwise_cons.mpr ⟨?_, h⟩
      intro z hz
      rcases List.mem_cons.mp hz with rfl | hz'
      · omega
      · exact le_trans (hy z hz') (by omega)

theorem pairwise_sortBetsDesc (l : List BetRec) :
    List.Pairwise (fun a c => c.bet_id ≤ a.bet_id) (sortBetsDesc l) := by
  induction l with
  | nil => simp [sortBetsDesc]
  | cons b rest ih => exact pairwise_insertDesc b _ ih

theorem mem_sortBetsDesc (x : BetRec) (l : List BetRec) :
    x ∈ sortBetsDesc l ↔ x ∈ l := by
  induction l with
  | nil => simp [sortBetsDesc]
  | cons b rest ih =>
    unfold sortBetsDesc
    rw [mem_insertDesc, ih]
    simp

theorem length_insertDesc (b : BetRec) (l : List BetRec) :
    (insertDesc b l).length = l.length + 1 := by
  induction l with
  | nil => simp [insertDesc]
  | cons y rest ih =>
    unfold insertDesc
    split <;> simp [ih]

theorem length_sortBetsDesc (l : List BetRec) :
    (sortBetsDesc l).length = l.length := by
  induction l with
  | nil => simp [sortBetsDesc]
  | cons b rest ih =>
    unfold sortBetsDesc
    rw [length_insertDesc, ih]
    simp

theorem handleIdle_db (ctx : Ctx) (db : Db) (u : UserRec) (inc : PyStr) :
    (handleIdle ctx db u inc).db = db := by
  unfold handleIdle
  split
  · rfl
  split <;> rfl

/-- In both branches the account message starts with the balance and
referral header. -/
theorem accountMsg_decomp (db : Db) (u : UserRec) :
    ∃ t, accountMsg db u =
      "💰 *Your Account Details:*\n🔹 Balance: ".data ++ intChars u.coins_balance ++
        (" coins\n🔹 Referral Code: ".data ++ u.referral_code ++
          ("\n\n📜 *Your Recent Bet History:*\n".data ++ t)) := by
  unfold accountMsg
  simp only []
  split
  · split
    · refine ⟨accountBetsLines (recentBets db u.user_id) 1 ++ "...and ".data ++
        natChars (countBets db u.user_id - 5) ++
        " more bets. Visit \x27my account\x27 for the complete history.".data, ?_⟩
      simp [List.append_assoc]
    · refine ⟨accountBetsLines (recentBets db u.user_id) 1, ?_⟩
      simp [List.append_assoc]
  · refine ⟨"You haven\x27t placed any bets yet.\n\n".data ++
      "🔄 Type \x27start\x27 to place a new bet or \x27exit\x27 to return to the main menu.".data, ?_⟩
    simp [List.append_assoc]

theorem digitVal_digitChar (d : Nat) (h : d < 10) :
    digitVal? (digitChar d) = some d := by
  interval_cases d <;> rfl

theorem parseTwoOrOne_first {A : Type} (p2 : Char → Char → Option Nat)
    (p1 : Char → Option Nat) (c1 c2 : Char) (rest : PyStr)
    (k : Nat → PyStr → Option A) (v : Nat) (r : A)
    (h2 : p2 c1 c2 = some v) (hk : k v rest = some r) :
    parseTwoOrOne p2 p1 (c1 :: c2 :: rest) k = some r := by
  simp only [parseTwoOrOne, h2, hk]

theorem pMonth2_pad (mo : Nat) (h1 : 1 ≤ mo) (h2 : mo ≤ 12) :
    pMonth2 (digitChar (mo / 10 % 10)) (digitChar (mo % 10)) = some mo := by
  simp only [pMonth2, digitVal_digitChar (mo / 10 % 10) (by omega),
    digitVal_digitChar (mo % 10) (by omega)]
  rcases Nat.lt_or_ge mo 10 with h | h
  · rw [if_neg (by omega), if_pos (by omega)]
    congr 1
    omega
  · rw [if_pos (by omega)]
    congr 1
    omega

theorem pDay2_pad (d : Nat) (h1 : 1 ≤ d) (h2 : d ≤ 31) :
    pDay2 (digitChar (d / 10 % 10)) (digitChar (d % 10)) = some d := by
  simp only [pDay2, digitVal_digitChar (d / 10 % 10) (by omega),
    digitVal_digitChar (d % 10) (by omega)]
  rcases Nat.lt_or_ge d 10 with h | h
  · rw [if_neg (by omega), if_neg (by omega), if_pos (by omega)]
    congr 1
    omega
  · rcases Nat.lt_or_ge d 30 with h' | h'
    · rw [if_neg (by omega), if_pos (by omega)]
      congr 1
      omega
    · rw [if_pos (by omega)]
      congr 1
      omega

theorem pHour2_pad (h : Nat) (hh : h ≤ 23) :
    pHour2 (digitChar (h / 10 % 10)) (digitChar (h % 10)) = some h := by
  simp only [pHour2, digitVal_digitChar (h / 10 % 10) (by omega),
    digitVal_digitChar (h % 10) (by omega)]
  rcases Nat.lt_or_ge h 20 with h' | h'
  · rw [if_neg (by omega), if_pos (by omega)]
    congr 1
    omega
  · rw [if_pos (by omega)]
    congr 1
    omega

theorem pMin2_pad (m : Nat) (hm : m ≤ 59) :
    pMin2 (digitChar (m / 10 % 10)) (digitChar (m % 10)) = some m := by
  simp only [pMin2, digitVal_digitChar (m / 10 % 10) (by omega),
    digitVal_digitChar (m % 10) (by omega)]
  rw [if_pos (by omega)]
  congr 1
  omega

theorem pSec2_pad (s : Nat) (hs : s ≤ 59) :
    pSec2 (digitChar (s / 10 % 10)) (digitChar (s % 10)) = some s := by
  simp only [pSec2, digitVal_digitChar (s / 10 % 10) (by omega),
    digitVal_digitChar (s % 10) (by omega)]
  rw [if_neg (by omega), if_pos (by omega)]
  congr 1
  omega

theorem daysInMonth_le_31 (y mo : Nat) : daysInMonth y mo ≤ 31 := by
  unfold daysInMonth
  split
  · split <;> omega
  · split <;> omega

theorem parseTS_canonical (y mo d h mi se : Nat)
    (hy1 : 1000 ≤ y) (hy2 : y ≤ 9999) (hmo1 : 1 ≤ mo) (hmo2 : mo ≤ 12)
    (hd1 : 1 ≤ d) (hd2 : d ≤ daysInMonth y mo) (hh : h ≤ 23) (hmi : mi ≤ 59)
    (hse : se ≤ 59) :
    parseTS (canonicalTS y mo d h mi se) = some ⟨y, mo, d, h, mi, se⟩ := by
  have hd31 : d ≤ 31 := le_trans hd2 (daysInMonth_le_31 y mo)
  have hmk : mkDateTime y mo d h mi se = some ⟨y, mo, d, h, mi, se⟩ := by
    unfold mkDateTime
    rw [if_pos ⟨by omega, by omega, by omega, by omega, by omega, hd2, hh, hmi, hse⟩]
  unfold canonicalTS pad2
  simp only [List.cons_append, List.nil_append]
  simp only [parseTS, eq_self_iff_true, if_true, digitVal_digitChar (y / 1000 % 10) (by omega),
    digitVal_digitChar (y / 100 % 10) (by omega),
    digitVal_digitChar (y / 10 % 10) (by omega),
    digitVal_digitChar (y % 10) (by omega)]
  have hy : ((y / 1000 % 10 * 10 + y / 100 % 10) * 10 + y / 10 % 10) * 10 + y % 10 = y := by
    omega
  rw [hy]
  unfold pStage1
  refine parseTwoOrOne_first _ _ _ _ _ _ mo _ (pMonth2_pad mo hmo1 hmo2) ?_
  show pStage2 y mo _ = _
  unfold pStage2
  refine parseTwoOrOne_first _ _ _ _ _ _ d _ (pDay2_pad d hd1 hd31) ?_
  show pStage3 y mo d _ = _
  unfold pStage3
  refine parseTwoOrOne_first _ _ _ _ _ _ h _ (pHour2_pad h hh) ?_
  show pStage4 y mo d h _ = _
  unfold pStage4
  refine parseTwoOrOne_first _ _ _ _ _ _ mi _ (pMin2_pad mi hmi) ?_
  show pStage5 y mo d h mi _ = _
  unfold pStage5
  refine parseTwoOrOne_first _ _ _ _ _ _ se _ (pSec2_pad se hse) ?_
  show mkDateTime y mo d h mi se = _
  exact hmk

theorem enumLines_matchLine_decomp (ms : List MatchData) (m : MatchData)
    (hm : m ∈ ms) (i : Nat) :
    ∃ l r, enumLines matchLine ms i = l ++ formatCommence m.commence_time ++ r := by
  induction ms generalizing i with
  | nil => simp at hm
  | cons x rest ih =>
    rcases List.mem_cons.mp hm with rfl | hm'
    · refine ⟨natChars i ++ ". ".data ++ m.home_team ++ " vs ".data ++ m.away_team ++
        " at ".data, "\n".data ++ enumLines matchLine rest (i + 1), ?_⟩
      simp [enumLines, matchLine, List.append_assoc]
    · obtain ⟨l, r, hl⟩ := ih hm' (i + 1)
      refine ⟨natChars i ++ ". ".data ++ matchLine x ++ "\n".data ++ l, r, ?_⟩
      simp [enumLines, hl, List.append_assoc]

theorem catFind_isSome_of_keyMem (cat : Catalog) (k : PyStr)
    (h : keyMem cat k = true) : (catFind? cat k).isSome = true := by
  unfold keyMem at h
  unfold catFind?
  rw [Option.isSome_map']
  rw [List.find?_isSome]
  obtain ⟨p, hp, hpk⟩ := List.any_eq_true.mp h
  exact ⟨p, hp, hpk⟩

theorem confirmationMsg_ne_noMatch (a b : PyStr) (c d : Int) :
    confirmationMsg a b c d ≠ noMatchSelectedMsg := by
  intro h
  have h1 : (confirmationMsg a b c d).head? = some '✅' := rfl
  rw [h] at h1
  exact absurd h1 (by decide)

theorem handleIdle_inv (ctx : Ctx) (db : Db) (u : UserRec) (inc : PyStr) :
    WF ctx.sports_list (handleIdle ctx db u inc).entry ∧
    (handleIdle ctx db u inc).status = 200 := by
  unfold handleIdle
  split
  · exact ⟨trivial, rfl⟩
  split
  · exact ⟨trivial, rfl⟩
  · exact ⟨trivial, rfl⟩

theorem handleSelectSport_inv (ctx : Ctx) (db : Db) (inc : PyStr) :
    WF ctx.sports_list (handleSelectSport ctx db inc).entry ∧
    (handleSelectSport ctx db inc).status = 200 := by
  unfold handleSelectSport
  cases hmg : sportMappingGet ctx.sports_list inc with
  | none => exact ⟨trivial, rfl⟩
  | some sp =>
    simp only []
    by_cases hok : sp ≠ [] ∧ keyMem ctx.sports_list sp = true
    · rw [if_pos hok]
      by_cases hact :
          ((catFind? ctx.sports_list sp).getD []).filter (fun t => t.active) = []
      · rw [if_pos hact]
        exact ⟨trivial, rfl⟩
      · rw [if_neg hact]
        exact ⟨catFind_isSome_of_keyMem _ _ hok.2, rfl⟩
    · rw [if_neg hok]
      exact ⟨trivial, rfl⟩

theorem handleSelectTournament_inv (ctx : Ctx) (db : Db) (sp inc : PyStr)
    (h : (catFind? ctx.sports_list sp).isSome = true) :
    WF ctx.sports_list (handleSelectTournament ctx db sp inc).entry ∧
    (handleSelectTournament ctx db sp inc).status = 200 := by
  unfold handleSelectTournament
  cases hpi : pyInt? inc with
  | none => exact ⟨h, rfl⟩
  | some v =>
    simp only []
    cases hcat : catFind? ctx.sports_list sp with
    | none =>
      rw [hcat] at h
      simp at h
    | some ts =>
      simp only []
      by_cases hrange : 0 ≤ v - 1 ∧ v - 1 < ((ts.filter (fun t => t.active)).length : Int)
      · rw [if_pos hrange]
        by_cases hm : ctx.fetchMatches
            ((pyLower ((ts.filter (fun t => t.active)).getD (v - 1).toNat default).key).map
              (fun c => if c = ' ' then '_' else c)) = []
        · rw [if_pos hm]
          exact ⟨trivial, rfl⟩
        · rw [if_neg hm]
          exact ⟨hm, rfl⟩
      · rw [if_neg hrange]
        exact ⟨h, rfl⟩

theorem handleSelectMatch_inv (cat : Catalog) (db : Db) (sp tn : PyStr)
    (ms : List MatchData) (inc : PyStr) (h : ms ≠ []) :
    WF cat (handleSelectMatch db sp tn ms inc).entry ∧
    (handleSelectMatch db sp tn ms inc).status = 200 := by
  unfold handleSelectMatch
  cases hpi : pyInt? inc with
  | none => exact ⟨h, rfl⟩
  | some v =>
    simp only []
    by_cases hrange : 0 ≤ v - 1 ∧ v - 1 < (ms.length : Int)
    · rw [if_pos hrange]
      by_cases hout : (ms.getD (v - 1).toNat default).odds.outcomes = []
      · rw [if_pos hout]
        exact ⟨h, rfl⟩
      · rw [if_neg hout]
        exact ⟨hout, rfl⟩
    · rw [if_neg hrange]
      exact ⟨h, rfl⟩

theorem handlePlaceBet_inv (cat : Catalog) (db : Db) (u : UserRec)
    (so tn : Option PyStr) (m : MatchData) (inc : PyStr)
    (h : m.odds.outcomes ≠ []) :
    WF cat (handlePlaceBet db u so tn (some m) inc).entry ∧
    (handlePlaceBet db u so tn (some m) inc).status = 200 ∧
    noMatchSelectedMsg ∉ (handlePlaceBet db u so tn (some m) inc).messages := by
  unfold handlePlaceBet
  by_cases hsw : pyStartsWith inc "bet".data = true
  · rw [if_pos hsw]
    by_cases hbad : (pySplit inc).length ≠ 2 ∨
        ¬ pyIsDigitStr ((pySplit inc).getD 1 []) = true
    · rw [if_pos hbad]
      exact ⟨h, rfl, (by decide : noMatchSelectedMsg ∉ [betFormatMsg])⟩
    · rw [if_neg hbad]
      simp only []
      by_cases hrange : 0 ≤ (digitsToNat ((pySplit inc).getD 1 []) 0 : Int) - 1 ∧
          (digitsToNat ((pySplit inc).getD 1 []) 0 : Int) - 1 < (m.odds.outcomes.length : Int)
      · rw [if_pos hrange]
        by_cases hbal : u.coins_balance ≥ 10
        · rw [if_pos hbal]
          refine ⟨trivial, rfl, ?_⟩
          intro hmem
          rcases List.mem_singleton.mp hmem with hq
          exact confirmationMsg_ne_noMatch _ _ _ _ hq.symm
        · rw [if_neg hbal]
          exact ⟨h, rfl, (by decide : noMatchSelectedMsg ∉ [insufficientMsg])⟩
      · rw [if_neg hrange]
        exact ⟨h, rfl, (by decide : noMatchSelectedMsg ∉ [invalidBetSelMsg])⟩
  · rw [if_neg hsw]
    exact ⟨h, rfl, (by decide : noMatchSelectedMsg ∉ [invalidPlaceBetCmdMsg])⟩

theorem dispatch_inv (ctx : Ctx) (db : Db) (entry : Option ConvState) (u : UserRec)
    (inc : PyStr) (hwf : WF ctx.sports_list entry) :
    WF ctx.sports_list (dispatch ctx db entry u inc).entry ∧
    (dispatch ctx db entry u inc).status = 200 ∧
    (∀ so tn mo, entry = some (.place_bet so tn mo) →
      noMatchSelectedMsg ∉ (dispatch ctx db entry u inc).messages) := by
  cases entry with
  | none =>
    have h := handleIdle_inv ctx db u inc
    exact ⟨h.1, h.2, by intro so tn mo he; exact absurd he (by simp)⟩
  | some st =>
    cases st with
    | select_sport =>
      have h := handleSelectSport_inv ctx db inc
      exact ⟨h.1, h.2, by intro so tn mo he; exact absurd he (by simp)⟩
    | select_tournament sp =>
      have h := handleSelectTournament_inv ctx db sp inc hwf
      exact ⟨h.1, h.2, by intro so tn mo he; exact absurd he (by simp)⟩
    | select_match sp tn ms =>
      have h := handleSelectMatch_inv ctx.sports_list db sp tn ms inc hwf
      exact ⟨h.1, h.2, by intro so tn' mo he; exact absurd he (by simp)⟩
    | place_bet so tn mo =>
      cases mo with
      | none => exact absurd hwf (by simp [WF])
      | some m =>
        have h := handlePlaceBet_inv ctx.sports_list db u so tn m inc hwf
        exact ⟨h.1, h.2.1, by intro so' tn' mo' he; exact h.2.2⟩

/-! ### Claim theorems -/

/-- Claim C1: a user in place_bet sending bet n with n in range of the
stored outcome list and balance at least 10 has the balance decremented by
exactly 10, exactly one Bet row appended with status placed, cost 10, and
match id and sport key copied from the stored match snapshot, the state
reset to idle, and receives a confirmation containing the team, the price,
the cost and the new balance. -/
theorem claim_c1 (ctx : Ctx) (db : Db) (u : UserRec)
    (so tn : Option PyStr) (m : MatchData) (bodyRaw fromRaw : PyStr)
    (ds : PyStr) (n : Nat) (o : Outcome)
    (hfrom : pyStrip fromRaw ≠ [])
    (hu : findUser db.users (pyStrip fromRaw) = some u)
    (hbody : pyLower (pyStrip bodyRaw) = "bet ".data ++ ds)
    (hds : pyIsDigitStr ds = true)
    (hn : digitsToNat ds 0 = n)
    (h1 : 1 ≤ n)
    (ho : m.odds.outcomes.get? (n - 1) = some o)
    (hbal : 10 ≤ u.coins_balance) :
    receive_message ctx db (some (.place_bet so tn (some m))) bodyRaw fromRaw =
      ⟨⟨db.users.map (fun v => if v.user_id = u.user_id then
           ⟨v.user_id, v.whatsapp_number, u.coins_balance - 10, v.referral_code⟩ else v),
        db.bets ++ [⟨db.nextBetId, u.user_id, m.sport_key,
          m.home_team ++ " vs ".data ++ m.away_team, m.id, "placed".data, 10⟩],
        db.nextUserId, db.nextBetId + 1⟩,
       none,
       [confirmationMsg o.name o.price 10 (u.coins_balance - 10)], 200⟩ ∧
    (∃ l r, confirmationMsg o.name o.price 10 (u.coins_balance - 10) = l ++ o.name ++ r) ∧
    (∃ l r, confirmationMsg o.name o.price 10 (u.coins_balance - 10) = l ++ o.price ++ r) ∧
    (∃ l r, confirmationMsg o.name o.price 10 (u.coins_balance - 10) = l ++ intChars 10 ++ r) ∧
    (∃ l r, confirmationMsg o.name o.price 10 (u.coins_balance - 10) =
      l ++ intChars (u.coins_balance - 10) ++ r) := by
  obtain ⟨hlt, -⟩ := List.get?_eq_some.mp ho
  refine ⟨?_, ?_, ?_, ?_, ?_⟩
  · rw [receive_message_known ctx db _ bodyRaw fromRaw u hfrom hu ?hexit]
    case hexit =>
      rw [hbody]
      rintro ⟨h, -⟩
      exact bet_body_ne_exit ds hds h
    rw [hbody]
    show handlePlaceBet db u so tn (some m) ("bet ".data ++ ds) = _
    unfold handlePlaceBet
    rw [if_pos (pyStartsWith_bet ds), pySplit_bet ds hds]
    rw [if_neg (by simp [hds, List.getD])]
    simp only [List.getD, List.get?, Option.getD, hn]
    rw [if_pos (by constructor <;> omega)]
    rw [show ((n : Int) - 1).toNat = n - 1 by omega]
    rw [ho, if_pos hbal]
  · refine ⟨"✅ *Bet Placed!*\nTeam: ".data,
      "\nOdds: ".data ++ o.price ++ "\nCost: ".data ++ intChars 10 ++
        " coins\nRemaining Balance: ".data ++ intChars (u.coins_balance - 10) ++
        " coins.\n\nType \x27start\x27 to place another bet or \x27my account\x27 to view your details.\n\n".data ++
        exitTail, ?_⟩
    simp [confirmationMsg, List.append_assoc]
  · refine ⟨"✅ *Bet Placed!*\nTeam: ".data ++ o.name ++ "\nOdds: ".data,
      "\nCost: ".data ++ intChars 10 ++ " coins\nRemaining Balance: ".data ++
        intChars (u.coins_balance - 10) ++
        " coins.\n\nType \x27start\x27 to place another bet or \x27my account\x27 to view your details.\n\n".data ++
        exitTail, ?_⟩
    simp [confirmationMsg, List.append_assoc]
  · refine ⟨"✅ *Bet Placed!*\nTeam: ".data ++ o.name ++ "\nOdds: ".data ++ o.price ++
      "\nCost: ".data,
      " coins\nRemaining Balance: ".data ++ intChars (u.coins_balance - 10) ++
        " coins.\n\nType \x27start\x27 to place another bet or \x27my account\x27 to view your details.\n\n".data ++
        exitTail, ?_⟩
    simp [confirmationMsg, List.append_assoc]
  · refine ⟨"✅ *Bet Placed!*\nTeam: ".data ++ o.name ++ "\nOdds: ".data ++ o.price ++
      "\nCost: ".data ++ intChars 10 ++ " coins\nRemaining Balance: ".data,
      " coins.\n\nType \x27start\x27 to place another bet or \x27my account\x27 to view your details.\n\n".data ++
        exitTail, ?_⟩
    simp [confirmationMsg, List.append_assoc]

/-- Witness for C1 at balance 500: the new balance is 490 and exactly one
ledger row with status placed exists. -/
theorem claim_c1_witness :
    receive_message wCtx wDb
      (some (.place_bet (some "Soccer".data) (some "Premier League".data) (some wM1)))
      "bet 1".data "+111".data =
      ⟨⟨[⟨1, "+111".data, 490, "CODE".data⟩],
        [⟨1, 1, some "soccer".data, "Arsenal vs Chelsea".data, some "M1".data, "placed".data, 10⟩],
        2, 2⟩, none, [confirmationMsg "Arsenal".data "1.95".data 10 490], 200⟩ := by
  have h := claim_c1 wCtx wDb wU (some "Soccer".data) (some "Premier League".data) wM1
    "bet 1".data "+111".data "1".data 1 wO1 (by decide) (by decide) (by decide)
    (by decide) (by decide) (by decide) (by decide) (by decide)
  exact h.1.trans (by decide)

/-- Claim C2: a user in place_bet sending a well-formed in-range bet n with
balance strictly below 10 gets the insufficient-balance message, the
balance and ledger unchanged, and the state still place_bet. -/
theorem claim_c2 (ctx : Ctx) (db : Db) (u : UserRec)
    (so tn : Option PyStr) (m : MatchData) (bodyRaw fromRaw : PyStr)
    (ds : PyStr) (n : Nat) (o : Outcome)
    (hfrom : pyStrip fromRaw ≠ [])
    (hu : findUser db.users (pyStrip fromRaw) = some u)
    (hbody : pyLower (pyStrip bodyRaw) = "bet ".data ++ ds)
    (hds : pyIsDigitStr ds = true)
    (hn : digitsToNat ds 0 = n)
    (h1 : 1 ≤ n)
    (ho : m.odds.outcomes.get? (n - 1) = some o)
    (hbal : u.coins_balance < 10) :
    receive_message ctx db (some (.place_bet so tn (some m))) bodyRaw fromRaw =
      ⟨db, some (.place_bet so tn (some m)), [insufficientMsg], 200⟩ := by
  obtain ⟨hlt, -⟩ := List.get?_eq_some.mp ho
  rw [receive_message_known ctx db _ bodyRaw fromRaw u hfrom hu ?hexit]
  case hexit =>
    rw [hbody]
    rintro ⟨h, -⟩
    exact bet_body_ne_exit ds hds h
  rw [hbody]
  show handlePlaceBet db u so tn (some m) ("bet ".data ++ ds) = _
  unfold handlePlaceBet
  rw [if_pos (pyStartsWith_bet ds), pySplit_bet ds hds]
  rw [if_neg (by simp [hds, List.getD])]
  simp only [List.getD, List.get?, Option.getD, hn]
  rw [if_pos (by constructor <;> omega)]
  rw [if_neg (by omega)]

/-- Witness for C2: balance 5, bet 1 at cost 10. -/
theorem claim_c2_witness :
    receive_message wCtx ⟨[⟨1, "+111".data, 5, "CODE".data⟩], [], 2, 1⟩
      (some (.place_bet (some "Soccer".data) (some "Premier League".data) (some wM1)))
      "bet 1".data "+111".data =
      ⟨⟨[⟨1, "+111".data, 5, "CODE".data⟩], [], 2, 1⟩,
       some (.place_bet (some "Soccer".data) (some "Premier League".data) (some wM1)),
       [insufficientMsg], 200⟩ :=
  claim_c2 wCtx ⟨[⟨1, "+111".data, 5, "CODE".data⟩], [], 2, 1⟩
    ⟨1, "+111".data, 5, "CODE".data⟩ (some "Soccer".data) (some "Premier League".data) wM1
    "bet 1".data "+111".data "1".data 1 wO1 (by decide) (by decide) (by decide)
    (by decide) (by decide) (by decide) (by decide) (by decide)

/-- Claim C3 counterexample: in select_match, selecting an in-range match
with an empty outcome list does not transition to idle; the select_match
entry is kept, contradicting the claimed transition to idle. -/
theorem claim_c3_counterexample :
    (receive_message wCtx wDb
      (some (.select_match "Soccer".data "Premier League".data [wM0]))
      "1".data "+111".data).entry ≠ none := by decide

/-- Claim C3 as amended: in select_match, an in-range selection of a match
with zero outcomes emits the no-outcomes message and leaves the state
entry unchanged in select_match (nothing is discarded); the database is
untouched. -/
theorem claim_c3_amended (ctx : Ctx) (db : Db) (u : UserRec)
    (sport tournament : PyStr) (ms : List MatchData) (bodyRaw fromRaw : PyStr)
    (n : Nat) (m : MatchData)
    (hfrom : pyStrip fromRaw ≠ [])
    (hu : findUser db.users (pyStrip fromRaw) = some u)
    (hbody : pyInt? (pyLower (pyStrip bodyRaw)) = some (n : Int))
    (h1 : 1 ≤ n)
    (hm : ms.get? (n - 1) = some m)
    (hout : m.odds.outcomes = []) :
    receive_message ctx db (some (.select_match sport tournament ms)) bodyRaw fromRaw =
      ⟨db, some (.select_match sport tournament ms), [noOutcomesMsg], 200⟩ := by
  obtain ⟨hlt, -⟩ := List.get?_eq_some.mp hm
  rw [receive_message_known ctx db _ bodyRaw fromRaw u hfrom hu ?hexit]
  case hexit =>
    rintro ⟨h, -⟩
    exact pyInt_ne_exit _ _ hbody h
  show handleSelectMatch db sport tournament ms (pyLower (pyStrip bodyRaw)) = _
  unfold handleSelectMatch
  rw [hbody]
  simp only []
  rw [if_pos (by constructor <;> omega)]
  rw [show ((n : Int) - 1).toNat = n - 1 by omega]
  rw [list_getD_of_get? _ _ m default hm]
  rw [if_pos hout]

/-- Claim C4: exit with a state entry resets to idle with the exit
confirmation before any state logic; exit in idle is not intercepted and
falls through to the invalid-command help; a subsequent start begins a
fresh sport selection whose state carries no tournament or match payload. -/
theorem claim_c4 :
    (∀ (ctx : Ctx) (db : Db) (entry : Option ConvState) (bodyRaw fromRaw : PyStr),
      pyStrip fromRaw ≠ [] →
      pyLower (pyStrip bodyRaw) = "exit".data → entry.isSome = true →
      receive_message ctx db entry bodyRaw fromRaw = ⟨db, none, [exitMsg], 200⟩) ∧
    (∀ (ctx : Ctx) (db : Db) (u : UserRec) (bodyRaw fromRaw : PyStr),
      pyStrip fromRaw ≠ [] →
      pyLower (pyStrip bodyRaw) = "exit".data →
      findUser db.users (pyStrip fromRaw) = some u →
      receive_message ctx db none bodyRaw fromRaw = ⟨db, none, [idleInvalidMsg], 200⟩) ∧
    (∀ (ctx : Ctx) (db : Db) (u : UserRec) (bodyRaw fromRaw : PyStr),
      pyStrip fromRaw ≠ [] →
      pyLower (pyStrip bodyRaw) = "start".data →
      findUser db.users (pyStrip fromRaw) = some u →
      receive_message ctx db none bodyRaw fromRaw =
        ⟨db, some .select_sport,
         [startSportsMsg (ctx.sports_list.map (fun p => p.1))], 200⟩) := by
  refine ⟨?_, ?_, ?_⟩
  · intro ctx db entry bodyRaw fromRaw hfrom hbody hsome
    unfold receive_message
    rw [if_neg hfrom, if_pos ⟨hbody, hsome⟩]
  · intro ctx db u bodyRaw fromRaw hfrom hbody hu
    rw [receive_message_known ctx db none bodyRaw fromRaw u hfrom hu
      (by rintro ⟨-, h⟩; simp at h)]
    show handleIdle ctx db u (pyLower (pyStrip bodyRaw)) = _
    rw [hbody]
    unfold handleIdle
    rw [if_neg (by decide), if_neg (by decide)]
  · intro ctx db u bodyRaw fromRaw hfrom hbody hu
    rw [receive_message_known ctx db none bodyRaw fromRaw u hfrom hu
      (by rintro ⟨-, h⟩; simp at h)]
    show handleIdle ctx db u (pyLower (pyStrip bodyRaw)) = _
    rw [hbody]
    unfold handleIdle
    rw [if_pos rfl]

/-- Witness for C4: exit from select_sport, exit in idle, then start. -/
theorem claim_c4_witness :
    receive_message wCtx wDb (some .select_sport) " EXIT ".data "+111".data =
      ⟨wDb, none, [exitMsg], 200⟩ ∧
    receive_message wCtx wDb none "exit".data "+111".data =
      ⟨wDb, none, [idleInvalidMsg], 200⟩ ∧
    receive_message wCtx wDb none "start".data "+111".data =
      ⟨wDb, some .select_sport,
       [startSportsMsg (wCtx.sports_list.map (fun p => p.1))], 200⟩ :=
  ⟨claim_c4.1 wCtx wDb (some .select_sport) " EXIT ".data "+111".data
     (by decide) (by decide) (by decide),
   claim_c4.2.1 wCtx wDb wU "exit".data "+111".data (by decide) (by decide) (by decide),
   claim_c4.2.2 wCtx wDb wU "start".data "+111".data (by decide) (by decide) (by decide)⟩

/-- Claim C8: my account in idle replies with the balance, the referral
code and at most the five most recent bets in descending bet id order,
states the number of remaining older bets when more than five exist, and
leaves the state idle and the database unchanged. -/
theorem claim_c8 (ctx : Ctx) (db : Db) (u : UserRec) (bodyRaw fromRaw : PyStr)
    (hfrom : pyStrip fromRaw ≠ [])
    (hu : findUser db.users (pyStrip fromRaw) = some u)
    (hbody : pyLower (pyStrip bodyRaw) = "my account".data) :
    receive_message ctx db none bodyRaw fromRaw = ⟨db, none, [accountMsg db u], 200⟩ ∧
    (recentBets db u.user_id).length ≤ 5 ∧
    List.Pairwise (fun a c => c.bet_id ≤ a.bet_id) (recentBets db u.user_id) ∧
    (∀ b ∈ recentBets db u.user_id, b ∈ db.bets ∧ b.user_id = u.user_id) ∧
    (∃ l r, accountMsg db u = l ++ intChars u.coins_balance ++ r) ∧
    (∃ l r, accountMsg db u = l ++ u.referral_code ++ r) ∧
    (countBets db u.user_id > 5 →
      ∃ l r, accountMsg db u = l ++ natChars (countBets db u.user_id - 5) ++ r) := by
  refine ⟨?_, ?_, ?_, ?_, ?_, ?_, ?_⟩
  · rw [receive_message_known ctx db none bodyRaw fromRaw u hfrom hu
      (by rintro ⟨-, h⟩; simp at h)]
    show handleIdle ctx db u (pyLower (pyStrip bodyRaw)) = _
    rw [hbody]
    unfold handleIdle
    rw [if_neg (by decide), if_pos rfl]
  · unfold recentBets
    rw [List.length_take]
    exact Nat.min_le_left 5 _
  · unfold recentBets
    exact (pairwise_sortBetsDesc _).sublist (List.take_sublist 5 _)
  · intro b hb
    unfold recentBets at hb
    have hb2 : b ∈ sortBetsDesc (db.bets.filter (fun c => c.user_id == u.user_id)) :=
      List.mem_of_mem_take hb
    have hb3 := (mem_sortBetsDesc b _).mp hb2
    obtain ⟨hmem, hpred⟩ := List.mem_filter.mp hb3
    exact ⟨hmem, by simpa using hpred⟩
  · obtain ⟨t, ht⟩ := accountMsg_decomp db u
    exact ⟨"💰 *Your Account Details:*\n🔹 Balance: ".data, _, ht⟩
  · obtain ⟨t, ht⟩ := accountMsg_decomp db u
    refine ⟨"💰 *Your Account Details:*\n🔹 Balance: ".data ++ intChars u.coins_balance ++
      " coins\n🔹 Referral Code: ".data,
      "\n\n📜 *Your Recent Bet History:*\n".data ++ t, ?_⟩
    rw [ht]
    simp [List.append_assoc]
  · intro htot
    have hne : recentBets db u.user_id ≠ [] := by
      unfold recentBets
      intro h
      have hlen := congrArg List.length h
      rw [List.length_take, length_sortBetsDesc] at hlen
      simp only [List.length_nil] at hlen
      rcases Nat.min_eq_zero_iff.mp hlen with h5 | h0
      · omega
      · unfold countBets at htot
        omega
    unfold accountMsg
    simp only []
    rw [if_pos hne, if_pos htot]
    refine ⟨("💰 *Your Account Details:*\n🔹 Balance: ".data ++ intChars u.coins_balance ++
      " coins\n🔹 Referral Code: ".data ++ u.referral_code ++
      "\n\n📜 *Your Recent Bet History:*\n".data ++
      accountBetsLines (recentBets db u.user_id) 1) ++ "...and ".data,
      " more bets. Visit \x27my account\x27 for the complete history.".data, ?_⟩
    simp [List.append_assoc]

/-- Witness for C8: six bets on the ledger, five shown plus one more. -/
theorem claim_c8_witness :
    receive_message wCtx wDb6 none "my account".data "+111".data =
      ⟨wDb6, none, [accountMsg wDb6 wU], 200⟩ ∧
    (recentBets wDb6 1).length ≤ 5 ∧
    (countBets wDb6 1 > 5 →
      ∃ l r, accountMsg wDb6 wU = l ++ natChars (countBets wDb6 1 - 5) ++ r) := by
  have h := claim_c8 wCtx wDb6 wU "my account".data "+111".data
    (by decide) (by decide) (by decide)
  exact ⟨h.1, h.2.1, h.2.2.2.2.2.2⟩

/-- Claim C9: a message from an unseen sender creates the account with
balance 500 and the freshly generated referral code, sends the welcome
message first, and then still processes the same message against the idle
state within the same request; distinct referral codes stay distinct when
the generated code is fresh. -/
theorem claim_c9 (ctx : Ctx) (db : Db) (bodyRaw fromRaw : PyStr)
    (hfrom : pyStrip fromRaw ≠ [])
    (hu : findUser db.users (pyStrip fromRaw) = none) :
    (receive_message ctx db none bodyRaw fromRaw =
      let newUser : UserRec := ⟨db.nextUserId, pyStrip fromRaw, 500, ctx.freshReferral⟩
      let db1 : Db := ⟨db.users ++ [newUser], db.bets, db.nextUserId + 1, db.nextBetId⟩
      let r := handleIdle ctx db1 newUser (pyLower (pyStrip bodyRaw))
      ⟨r.db, r.entry, welcomeMsg :: r.messages, r.status⟩) ∧
    (receive_message ctx db none bodyRaw fromRaw).db.users =
      db.users ++ [⟨db.nextUserId, pyStrip fromRaw, 500, ctx.freshReferral⟩] ∧
    ((db.users.map (fun w => w.referral_code)).Nodup →
      ctx.freshReferral ∉ db.users.map (fun w => w.referral_code) →
      ((receive_message ctx db none bodyRaw fromRaw).db.users.map
        (fun w => w.referral_code)).Nodup) := by
  have hmain : receive_message ctx db none bodyRaw fromRaw =
      let newUser : UserRec := ⟨db.nextUserId, pyStrip fromRaw, 500, ctx.freshReferral⟩
      let db1 : Db := ⟨db.users ++ [newUser], db.bets, db.nextUserId + 1, db.nextBetId⟩
      let r := handleIdle ctx db1 newUser (pyLower (pyStrip bodyRaw))
      ⟨r.db, r.entry, welcomeMsg :: r.messages, r.status⟩ := by
    rw [receive_message_new ctx db none bodyRaw fromRaw hfrom hu
      (by rintro ⟨-, h⟩; simp at h)]
    rfl
  have husers : (receive_message ctx db none bodyRaw fromRaw).db.users =
      db.users ++ [⟨db.nextUserId, pyStrip fromRaw, 500, ctx.freshReferral⟩] := by
    rw [hmain]
    simp only []
    rw [handleIdle_db]
  refine ⟨hmain, husers, ?_⟩
  intro hnd hfresh
  rw [husers]
  simp only [List.map_append, List.map_cons, List.map_nil]
  rw [List.nodup_append]
  refine ⟨hnd, by simp, ?_⟩
  intro a ha hb
  simp at hb
  rw [hb] at ha
  exact hfresh ha

/-- Witness for C9: unseen sender, invalid command body. -/
theorem claim_c9_witness :
    receive_message wCtx ⟨[], [], 7, 1⟩ none "hello".data "+999".data =
      ⟨⟨[⟨7, "+999".data, 500, "REF1".data⟩], [], 8, 1⟩, none,
       [welcomeMsg, idleInvalidMsg], 200⟩ := by
  have h := claim_c9 wCtx ⟨[], [], 7, 1⟩ "hello".data "+999".data (by decide) (by decide)
  exact h.1.trans (by decide)

/-- Claim C7: a commence_time of the canonical form YYYY-MM-DDTHH:MM:SSZ
parses and is rendered as Month day, year at HH:MM UTC; whenever parsing
fails the raw value is echoed verbatim (the formatter is total, so no
exception propagates), and a failing raw value appears verbatim inside the
match list message. -/
theorem claim_c7 :
    (∀ s : PyStr, parseTS s = none → formatCommence s = s) ∧
    (∀ (s : PyStr) (dt : PyDateTime), parseTS s = some dt → formatCommence s = renderDT dt) ∧
    (∀ y mo d h mi se : Nat, 1000 ≤ y → y ≤ 9999 → 1 ≤ mo → mo ≤ 12 → 1 ≤ d →
      d ≤ daysInMonth y mo → h ≤ 23 → mi ≤ 59 → se ≤ 59 →
      parseTS (canonicalTS y mo d h mi se) = some ⟨y, mo, d, h, mi, se⟩ ∧
      formatCommence (canonicalTS y mo d h mi se) = renderDT ⟨y, mo, d, h, mi, se⟩) ∧
    (∀ (t : PyStr) (ms : List MatchData) (m : MatchData), m ∈ ms →
      parseTS m.commence_time = none →
      ∃ l r, matchListMsg t ms = l ++ m.commence_time ++ r) := by
  have hnone : ∀ s : PyStr, parseTS s = none → formatCommence s = s := by
    intro s hs
    unfold formatCommence
    rw [hs]
  have hsome : ∀ (s : PyStr) (dt : PyDateTime), parseTS s = some dt →
      formatCommence s = renderDT dt := by
    intro s dt hs
    unfold formatCommence
    rw [hs]
  refine ⟨hnone, hsome, ?_, ?_⟩
  · intro y mo d h mi se hy1 hy2 hmo1 hmo2 hd1 hd2 hh hmi hse
    have hp := parseTS_canonical y mo d h mi se hy1 hy2 hmo1 hmo2 hd1 hd2 hh hmi hse
    exact ⟨hp, hsome _ _ hp⟩
  · intro t ms m hm hfail
    obtain ⟨l, r, hl⟩ := enumLines_matchLine_decomp ms m hm 1
    rw [hnone _ hfail] at hl
    refine ⟨"⚽ *".data ++ t ++ " Matches:*\n".data ++ l,
      r ++ ("\n➡️ Reply with the number of the match you\x27d like to bet on (e.g., \x271\x27).\n\n".data ++
        exitTail), ?_⟩
    unfold matchListMsg
    rw [hl]
    simp [List.append_assoc]

/-- Witness for C7: a canonical timestamp renders in the pretty form and a
non-parsing string is echoed verbatim. -/
theorem claim_c7_witness :
    parseTS (canonicalTS 2024 6 15 18 30 0) = some ⟨2024, 6, 15, 18, 30, 0⟩ ∧
    formatCommence (canonicalTS 2024 6 15 18 30 0) = renderDT ⟨2024, 6, 15, 18, 30, 0⟩ ∧
    formatCommence "garbage".data = "garbage".data := by
  have h3 := claim_c7.2.2.1 2024 6 15 18 30 0 (by decide) (by decide) (by decide)
    (by decide) (by decide) (by decide) (by decide) (by decide) (by decide)
  exact ⟨h3.1, h3.2, claim_c7.1 "garbage".data (by decide)⟩

/-- Claim C6: in every state, every input the state machine classifies as
invalid leaves the database and the conversation state unchanged and emits
the invalid-input message of that state; since the step is deterministic
and state-preserving, submitting the same malformed input twice yields the
same state and the same message both times. -/
theorem claim_c6 (ctx : Ctx) (db : Db) (u : UserRec) (bodyRaw fromRaw : PyStr)
    (hfrom : pyStrip fromRaw ≠ [])
    (hu : findUser db.users (pyStrip fromRaw) = some u) :
    ((∀ sp, sportMappingGet ctx.sports_list (pyLower (pyStrip bodyRaw)) = some sp →
        ¬(sp ≠ [] ∧ keyMem ctx.sports_list sp = true)) →
      pyLower (pyStrip bodyRaw) ≠ "exit".data →
      receive_message ctx db (some .select_sport) bodyRaw fromRaw =
        ⟨db, some .select_sport,
         [invalidSportMsg (ctx.sports_list.map (fun p => p.1))], 200⟩) ∧
    (∀ sp, pyInt? (pyLower (pyStrip bodyRaw)) = none →
      pyLower (pyStrip bodyRaw) ≠ "exit".data →
      receive_message ctx db (some (.select_tournament sp)) bodyRaw fromRaw =
        ⟨db, some (.select_tournament sp), [invalidTournamentInputMsg], 200⟩) ∧
    (∀ sp ts v, pyInt? (pyLower (pyStrip bodyRaw)) = some v →
      catFind? ctx.sports_list sp = some ts →
      ¬(0 ≤ v - 1 ∧ v - 1 < ((ts.filter (fun t => t.active)).length : Int)) →
      receive_message ctx db (some (.select_tournament sp)) bodyRaw fromRaw =
        ⟨db, some (.select_tournament sp), [invalidTournamentSelMsg], 200⟩) ∧
    (∀ sp tn ms, pyInt? (pyLower (pyStrip bodyRaw)) = none →
      pyLower (pyStrip bodyRaw) ≠ "exit".data →
      receive_message ctx db (some (.select_match sp tn ms)) bodyRaw fromRaw =
        ⟨db, some (.select_match sp tn ms), [invalidMatchInputMsg], 200⟩) ∧
    (∀ sp tn ms v, pyInt? (pyLower (pyStrip bodyRaw)) = some v →
      ¬(0 ≤ v - 1 ∧ v - 1 < (ms.length : Int)) →
      receive_message ctx db (some (.select_match sp tn ms)) bodyRaw fromRaw =
        ⟨db, some (.select_match sp tn ms), [invalidMatchSelMsg], 200⟩) ∧
    (∀ so tn mo, pyStartsWith (pyLower (pyStrip bodyRaw)) "bet".data = true →
      ((pySplit (pyLower (pyStrip bodyRaw))).length ≠ 2 ∨
        ¬ pyIsDigitStr ((pySplit (pyLower (pyStrip bodyRaw))).getD 1 []) = true) →
      receive_message ctx db (some (.place_bet so tn mo)) bodyRaw fromRaw =
        ⟨db, some (.place_bet so tn mo), [betFormatMsg], 200⟩) ∧
    (∀ so tn m ds n, pyLower (pyStrip bodyRaw) = "bet ".data ++ ds →
      pyIsDigitStr ds = true → digitsToNat ds 0 = n →
      ¬(0 ≤ (n : Int) - 1 ∧ (n : Int) - 1 < (m.odds.outcomes.length : Int)) →
      receive_message ctx db (some (.place_bet so tn (some m))) bodyRaw fromRaw =
        ⟨db, some (.place_bet so tn (some m)), [invalidBetSelMsg], 200⟩) ∧
    (∀ so tn mo, pyStartsWith (pyLower (pyStrip bodyRaw)) "bet".data = false →
      pyLower (pyStrip bodyRaw) ≠ "exit".data →
      receive_message ctx db (some (.place_bet so tn mo)) bodyRaw fromRaw =
        ⟨db, some (.place_bet so tn mo), [invalidPlaceBetCmdMsg], 200⟩) ∧
    (pyLower (pyStrip bodyRaw) ≠ "start".data →
      pyLower (pyStrip bodyRaw) ≠ "my account".data →
      receive_message ctx db none bodyRaw fromRaw = ⟨db, none, [idleInvalidMsg], 200⟩) ∧
    (∀ (entry : Option ConvState) (r : StepResult),
      receive_message ctx db entry bodyRaw fromRaw = r → r.db = db → r.entry = entry →
      receive_message ctx r.db r.entry bodyRaw fromRaw = r) := by
  refine ⟨?_, ?_, ?_, ?_, ?_, ?_, ?_, ?_, ?_, ?_⟩
  · intro hinv hne
    rw [receive_message_known ctx db _ bodyRaw fromRaw u hfrom hu (by rintro ⟨h, -⟩; exact hne h)]
    show handleSelectSport ctx db (pyLower (pyStrip bodyRaw)) = _
    unfold handleSelectSport
    cases hmg : sportMappingGet ctx.sports_list (pyLower (pyStrip bodyRaw)) with
    | none => simp only []
    | some sp =>
      simp only []
      rw [if_neg (hinv sp hmg)]
  · intro sp hpi hne
    rw [receive_message_known ctx db _ bodyRaw fromRaw u hfrom hu (by rintro ⟨h, -⟩; exact hne h)]
    show handleSelectTournament ctx db sp (pyLower (pyStrip bodyRaw)) = _
    unfold handleSelectTournament
    rw [hpi]
  · intro sp ts v hpi hcat hoor
    rw [receive_message_known ctx db _ bodyRaw fromRaw u hfrom hu
      (by rintro ⟨h, -⟩; exact pyInt_ne_exit _ _ hpi h)]
    show handleSelectTournament ctx db sp (pyLower (pyStrip bodyRaw)) = _
    unfold handleSelectTournament
    rw [hpi]
    simp only []
    rw [hcat]
    simp only []
    rw [if_neg hoor]
  · intro sp tn ms hpi hne
    rw [receive_message_known ctx db _ bodyRaw fromRaw u hfrom hu (by rintro ⟨h, -⟩; exact hne h)]
    show handleSelectMatch db sp tn ms (pyLower (pyStrip bodyRaw)) = _
    unfold handleSelectMatch
    rw [hpi]
  · intro sp tn ms v hpi hoor
    rw [receive_message_known ctx db _ bodyRaw fromRaw u hfrom hu
      (by rintro ⟨h, -⟩; exact pyInt_ne_exit _ _ hpi h)]
    show handleSelectMatch db sp tn ms (pyLower (pyStrip bodyRaw)) = _
    unfold handleSelectMatch
    rw [hpi]
    simp only []
    rw [if_neg hoor]
  · intro so tn mo hsw hbad
    have hne : pyLower (pyStrip bodyRaw) ≠ "exit".data := by
      intro h
      rw [h] at hsw
      exact absurd hsw (by decide)
    rw [receive_message_known ctx db _ bodyRaw fromRaw u hfrom hu (by rintro ⟨h, -⟩; exact hne h)]
    show handlePlaceBet db u so tn mo (pyLower (pyStrip bodyRaw)) = _
    unfold handlePlaceBet
    rw [if_pos hsw, if_pos hbad]
  · intro so tn m ds n hbody hds hn hoor
    rw [receive_message_known ctx db _ bodyRaw fromRaw u hfrom hu
      (by rw [hbody]; rintro ⟨h, -⟩; exact bet_body_ne_exit ds hds h)]
    rw [hbody]
    show handlePlaceBet db u so tn (some m) ("bet ".data ++ ds) = _
    unfold handlePlaceBet
    rw [if_pos (pyStartsWith_bet ds), pySplit_bet ds hds]
    rw [if_neg (by simp [hds, List.getD])]
    simp only [List.getD, List.get?, Option.getD, hn]
    rw [if_neg hoor]
  · intro so tn mo hsw hne
    rw [receive_message_known ctx db _ bodyRaw fromRaw u hfrom hu (by rintro ⟨h, -⟩; exact hne h)]
    show handlePlaceBet db u so tn mo (pyLower (pyStrip bodyRaw)) = _
    unfold handlePlaceBet
    rw [if_neg (by rw [hsw]; exact Bool.false_ne_true)]
  · intro hne1 hne2
    rw [receive_message_known ctx db none bodyRaw fromRaw u hfrom hu (by rintro ⟨-, h⟩; simp at h)]
    show handleIdle ctx db u (pyLower (pyStrip bodyRaw)) = _
    unfold handleIdle
    rw [if_neg hne1, if_neg hne2]
  · intro entry r h hdb he
    rw [hdb, he]
    exact h

/-- Witness for C6: one malformed input per state, each leaving the state
unchanged. -/
theorem claim_c6_witness :
    receive_message wCtx wDb (some .select_sport) "99".data "+111".data =
      ⟨wDb, some .select_sport,
       [invalidSportMsg (wCtx.sports_list.map (fun p => p.1))], 200⟩ ∧
    receive_message wCtx wDb (some (.select_tournament "Soccer".data)) "abc".data "+111".data =
      ⟨wDb, some (.select_tournament "Soccer".data), [invalidTournamentInputMsg], 200⟩ ∧
    receive_message wCtx wDb
      (some (.place_bet (some "Soccer".data) (some "Premier League".data) (some wM1)))
      "bet x".data "+111".data =
      ⟨wDb, some (.place_bet (some "Soccer".data) (some "Premier League".data) (some wM1)),
       [betFormatMsg], 200⟩ ∧
    receive_message wCtx wDb none "hello".data "+111".data =
      ⟨wDb, none, [idleInvalidMsg], 200⟩ := by
  have h := claim_c6 wCtx wDb wU "99".data "+111".data (by decide) (by decide)
  have h2 := claim_c6 wCtx wDb wU "abc".data "+111".data (by decide) (by decide)
  have h3 := claim_c6 wCtx wDb wU "bet x".data "+111".data (by decide) (by decide)
  have h4 := claim_c6 wCtx wDb wU "hello".data "+111".data (by decide) (by decide)
  refine ⟨h.1 (by decide) (by decide), ?_, ?_, ?_⟩
  · exact h2.2.1 "Soccer".data (by decide) (by decide)
  · exact h3.2.2.2.2.2.1 (some "Soccer".data) (some "Premier League".data) (some wM1)
      (by decide) (by decide)
  · exact h4.2.2.2.2.2.2.2.2.1 (by decide) (by decide)

/-- Claim C10: well-formedness of stored state entries is preserved by
every message-processing step, no step raises (status 200: in particular
the catalog lookup of the select_tournament handler cannot fail), a
place_bet entry always holds a match with a non-empty outcome list, and
the defensive no-match-selected reply is never sent from a well-formed
place_bet state. -/
theorem claim_c10 (ctx : Ctx) (db : Db) (entry : Option ConvState)
    (bodyRaw fromRaw : PyStr) (hwf : WF ctx.sports_list entry) :
    WF ctx.sports_list (receive_message ctx db entry bodyRaw fromRaw).entry ∧
    (receive_message ctx db entry bodyRaw fromRaw).status = 200 ∧
    (∀ so tn mo, entry = some (.place_bet so tn mo) →
      ∃ m, mo = some m ∧ m.odds.outcomes ≠ []) ∧
    (∀ so tn mo, entry = some (.place_bet so tn mo) →
      noMatchSelectedMsg ∉ (receive_message ctx db entry bodyRaw fromRaw).messages) := by
  have hchar : ∀ so tn mo, entry = some (.place_bet so tn mo) →
      ∃ m, mo = some m ∧ m.odds.outcomes ≠ [] := by
    intro so tn mo he
    subst he
    cases mo with
    | none => exact absurd hwf (by simp [WF])
    | some m => exact ⟨m, rfl, hwf⟩
  unfold receive_message
  by_cases hfrom : pyStrip fromRaw = []
  · rw [if_pos hfrom]
    exact ⟨hwf, rfl, hchar, by intro so tn mo he; simp⟩
  rw [if_neg hfrom]
  by_cases hexit : pyLower (pyStrip bodyRaw) = "exit".data ∧ entry.isSome = true
  · rw [if_pos hexit]
    exact ⟨trivial, rfl, hchar,
      fun so tn mo he => (by decide : noMatchSelectedMsg ∉ [exitMsg])⟩
  rw [if_neg hexit]
  cases hu : findUser db.users (pyStrip fromRaw) with
  | some u =>
    have h := dispatch_inv ctx db entry u (pyLower (pyStrip bodyRaw)) hwf
    exact ⟨h.1, h.2.1, hchar, h.2.2⟩
  | none =>
    have h := dispatch_inv ctx
      ⟨db.users ++ [⟨db.nextUserId, pyStrip fromRaw, 500, ctx.freshReferral⟩],
       db.bets, db.nextUserId + 1, db.nextBetId⟩ entry
      ⟨db.nextUserId, pyStrip fromRaw, 500, ctx.freshReferral⟩
      (pyLower (pyStrip bodyRaw)) hwf
    refine ⟨h.1, h.2.1, hchar, ?_⟩
    intro so tn mo he hmem
    rcases List.mem_cons.mp hmem with hq | hq
    · exact absurd hq (by decide : ¬ noMatchSelectedMsg = welcomeMsg)
    · exact h.2.2 so tn mo he hq

/-- Witness for C10 at a well-formed place_bet state. -/
theorem claim_c10_witness :
    WF wCtx.sports_list
      (receive_message wCtx wDb
        (some (.place_bet (some "Soccer".data) (some "Premier League".data) (some wM1)))
        "bet 1".data "+111".data).entry ∧
    (receive_message wCtx wDb
      (some (.place_bet (some "Soccer".data) (some "Premier League".data) (some wM1)))
      "bet 1".data "+111".data).status = 200 ∧
    (∀ so tn mo,
      (some (.place_bet (some "Soccer".data) (some "Premier League".data) (some wM1)) :
          Option ConvState) = some (.place_bet so tn mo) →
      ∃ m, mo = some m ∧ m.odds.outcomes ≠ []) ∧
    (∀ so tn mo,
      (some (.place_bet (some "Soccer".data) (some "Premier League".data) (some wM1)) :
          Option ConvState) = some (.place_bet so tn mo) →
      noMatchSelectedMsg ∉
        (receive_message wCtx wDb
          (some (.place_bet (some "Soccer".data) (some "Premier League".data) (some wM1)))
          "bet 1".data "+111".data).messages) :=
  claim_c10 wCtx wDb
    (some (.place_bet (some "Soccer".data) (some "Premier League".data) (some wM1)))
    "bet 1".data "+111".data (by show wM1.odds.outcomes ≠ []; decide)

/-- Witness for the amended C3. -/
theorem claim_c3_amended_witness :
    receive_message wCtx wDb
      (some (.select_match "Soccer".data "Premier League".data [wM0]))
      "1".data "+111".data =
      ⟨wDb, some (.select_match "Soccer".data "Premier League".data [wM0]),
       [noOutcomesMsg], 200⟩ :=
  claim_c3_amended wCtx wDb wU "Soccer".data "Premier League".data [wM0]
    "1".data "+111".data 1 wM0 (by decide) (by decide) (by decide) (by decide)
    (by decide) (by decide)

end TwilioChat
